import Mathlib

/-!
Verification development for the teamflow-backend job time-tracking module
(`app/api/v1/timesheets.py`): a shallow embedding of the time-entry state
machine, the rate resolver, the assignment-activity backfill and the billing
aggregator, together with theorems checking the specification's claims.

Modelling conventions:
* Mongo documents become Lean structures; collections become lists in
  insertion order.  `find_one` is `List.find?` (first match), `insert_one`
  appends, `update_one` rewrites the first matching element.
* Timestamps are integer seconds since the epoch together with the calendar
  day observed by `_start_of_day`; `int(delta.total_seconds() // 60)` is
  floor division of the second difference by 60.
* Python `round(x, 2)` is modelled by exact rational round-half-to-even to
  two decimals (binary floating point representation is not modelled).
* Each endpoint returns the HTTP outcome together with the resulting store,
  so "no state change on error" is a theorem, not a definition.
-/

namespace Teamflow

/-- Calendar date as stored in the `date` field (the result of
`_start_of_day`) and used for day-bucketed queries. -/
structure CalDate where
  y : Int
  m : Int
  d : Int
deriving DecidableEq

/-- Lexicographic `<=` on dates, as `datetime` comparison behaves for
midnight values. -/
def CalDate.ble (a b : CalDate) : Bool :=
  a.y < b.y || (a.y == b.y && (a.m < b.m || (a.m == b.m && a.d ≤ b.d)))

/-- Lexicographic `<` on dates. -/
def CalDate.blt (a b : CalDate) : Bool :=
  a.y < b.y || (a.y == b.y && (a.m < b.m || (a.m == b.m && a.d < b.d)))

/-- A point in time: absolute seconds since the epoch plus the calendar day
it falls on (the value `_start_of_day` extracts). -/
structure Ts where
  sec : Int
  day : CalDate
deriving DecidableEq

/-- `int((b - a).total_seconds() // 60)`: whole elapsed minutes between two
instants, floor division (may be negative when `b` precedes `a`). -/
def elapsedMins (a b : Ts) : Int :=
  Int.fdiv (b.sec - a.sec) 60

/-- `_start_of_day(dt)` keeps only the calendar day. -/
def startOfDay (t : Ts) : CalDate :=
  t.day

/-- Floor of a rational, computed on the normalized numerator and
denominator so that it reduces inside the kernel. -/
def ratFloor (q : ℚ) : Int :=
  Int.fdiv q.num (q.den : Int)

/-- Round-half-to-even to an integer, the tie rule of Python `round`. -/
def roundHalfEven (q : ℚ) : Int :=
  let f : Int := ratFloor q
  let r : ℚ := q - (f : ℚ)
  if r < 1 / 2 then f
  else if 1 / 2 < r then f + 1
  else if f % 2 = 0 then f else f + 1

/-- Python `round(x, 2)` on exact rationals. -/
def round2 (q : ℚ) : ℚ :=
  (roundHalfEven (q * 100) : ℚ) / 100

/-- `is_admin_like` from `app/core/rbac.py`. -/
def isAdminLike (role : String) : Bool :=
  role == "admin" || role == "manager" || role == "hr"

/-- The authenticated caller: `{id, company_id, role}`. -/
structure User where
  id : Nat
  company : Nat
  role : String
deriving DecidableEq

/-- A document of the `employees` collection (the fields the module reads). -/
structure Employee where
  id : Nat
  company : Nat
  userId : Nat
deriving DecidableEq

/-- A document of the `jobs` collection. -/
structure Job where
  id : Nat
  company : Nat
  name : String
  clientName : Option String
  defaultRate : ℚ
  active : Bool
deriving DecidableEq

/-- A document of the `job_rates` collection; `rate = none` models a missing
or non-numeric `rate` field (the `isinstance` guard in the resolver). -/
structure JobRate where
  company : Nat
  job : Nat
  employee : Nat
  rate : Option ℚ
deriving DecidableEq

/-- A document of the `time_entries` collection.  A manual entry never gets
the pause/abandon keys; reading a missing key yields the same value as the
zero/`none` defaults used here, so those fields are stored as defaults. -/
structure TimeEntry where
  id : Nat
  company : Nat
  employee : Nat
  job : Nat
  date : CalDate
  startTs : Ts
  endTs : Option Ts
  breakMinutes : Int
  breakStartedAt : Option Ts
  pausedMinutes : Int
  pausedStartedAt : Option Ts
  pauseLastReason : Option String
  plannedResumeAt : Option Ts
  abandonedReason : Option String
  isActive : Bool
  note : Option String
  source : String
  durationMinutes : Option Int
  createdAt : Option Ts
  updatedAt : Option Ts
deriving DecidableEq

/-- A document of the `job_assignments` collection; `job = none` models a
stored `job_id` that is not an `ObjectId` (skipped by the backfill). -/
structure Assignment where
  company : Nat
  employee : Nat
  job : Option Nat
  state : String
  stateChangedAt : Option Ts
  createdAt : Option Ts
  updatedAt : Option Ts
deriving DecidableEq

/-- A document of the append-only `assignment_activity` collection. -/
structure Activity where
  company : Nat
  employee : Nat
  job : Option Nat
  jobName : Option String
  action : String
  actorUserId : Option Nat
  note : Option String
  createdAt : Ts
deriving DecidableEq

/-- The persistence store: each collection in insertion order. -/
structure St where
  employees : List Employee
  jobs : List Job
  jobRates : List JobRate
  entries : List TimeEntry
  assignments : List Assignment
  activities : List Activity
deriving DecidableEq

/-- The HTTP error outcomes raised by the module (status plus detail);
`internalError` stands for an unhandled exception. -/
inductive Err where
  | badRequest (detail : String)
  | forbidden (detail : String)
  | notFound (detail : String)
  | internalError
deriving DecidableEq

/-- The `TimeEntryOut` response schema (absent optional fields are `none`). -/
structure TimeEntryOut where
  id : Nat
  jobId : Nat
  employeeId : Nat
  startTs : Option Ts
  endTs : Option Ts
  breakMinutes : Int
  pausedMinutes : Option Int
  isActive : Bool
  onBreak : Bool
  onPause : Option Bool
  state : Option String
  plannedResumeAt : Option Ts
  pauseReason : Option String
  durationMinutes : Option Int
  note : Option String
  rate : Option ℚ
  amount : Option ℚ
deriving DecidableEq

/-- `update_one({_id: ...}, {$set: ...})`: rewrite the first list element
satisfying the predicate. -/
def updateFirst (p : α → Bool) (f : α → α) : List α → List α
  | [] => []
  | x :: xs => if p x then f x :: xs else x :: updateFirst p f xs

/-- `_get_current_employee_id`: resolve the caller's employee profile. -/
def getCurrentEmployeeId (s : St) (u : User) : Option Nat :=
  (s.employees.find? (fun e => e.company == u.company && e.userId == u.id)).map (·.id)

/-- `_get_effective_rate`: the JobRate override when present and numeric,
else the job's `default_rate`, else `0.0`. -/
def getEffectiveRate (s : St) (company job employee : Nat) : ℚ :=
  let fallback : ℚ :=
    match s.jobs.find? (fun j => j.id == job && j.company == company) with
    | some j => j.defaultRate
    | none => 0
  match s.jobRates.find? (fun r => r.company == company && r.job == job && r.employee == employee) with
  | some jr =>
    match jr.rate with
    | some r => r
    | none => fallback
  | none => fallback

/-- The query `{"company_id": c, "employee_id": e, "is_active": True}`
issued by every clock transition. -/
def findActiveEntry (s : St) (company employee : Nat) : Option TimeEntry :=
  s.entries.find? (fun t => t.company == company && t.employee == employee && t.isActive)

/-- Python `payload.reason or None`: the empty string becomes `None`. -/
def strOrNone (o : Option String) : Option String :=
  match o with
  | some r => if r == "" then none else some r
  | none => none

/-- `ClockInPayload`. -/
structure ClockInPayload where
  jobId : Nat
  note : Option String
deriving DecidableEq

/-- `PausePayload`. -/
structure PausePayload where
  reason : Option String
  resumeAt : Option Ts
deriving DecidableEq

/-- `AbandonPayload`. -/
structure AbandonPayload where
  reason : Option String
deriving DecidableEq

/-- `ManualTimeEntryIn` (pydantic validates `break_minutes ≥ 0`). -/
structure ManualTimeEntryIn where
  jobId : Nat
  startTs : Ts
  endTs : Ts
  breakMinutes : Int
  note : Option String
deriving DecidableEq

/-- `ManualTimeEntryUpdate` under `exclude_unset`: `none` means the field was
not supplied (a field explicitly supplied as `null` is not modelled). -/
structure ManualTimeEntryUpdate where
  startTs : Option Ts
  endTs : Option Ts
  breakMinutes : Option Int
  note : Option String
deriving DecidableEq


/-- POST `/entries/clock-in`.  `now` and `now2` are the two `utcnow()` calls,
`newId` the generated `_id`. -/
def clockIn (s : St) (u : User) (p : ClockInPayload) (now now2 : Ts) (newId : Nat) :
    Except Err TimeEntryOut × St :=
  match getCurrentEmployeeId s u with
  | none => (.error (.badRequest "No employee profile linked to your account"), s)
  | some employeeId =>
    match s.jobs.find? (fun j => j.id == p.jobId && j.company == u.company && j.active) with
    | none => (.error (.badRequest "Invalid or inactive job"), s)
    | some job =>
      match findActiveEntry s u.company employeeId with
      | some _ => (.error (.badRequest "You already have an active time entry"), s)
      | none =>
        if !isAdminLike u.role
            && s.assignments.any (fun a => a.company == u.company && a.job == some p.jobId)
            && !(s.assignments.any (fun a =>
                  a.company == u.company && a.job == some p.jobId && a.employee == employeeId)) then
          (.error (.forbidden "You are not assigned to this job"), s)
        else
          let doc : TimeEntry :=
            { id := newId, company := u.company, employee := employeeId, job := p.jobId,
              date := startOfDay now, startTs := now, endTs := none,
              breakMinutes := 0, breakStartedAt := none,
              pausedMinutes := 0, pausedStartedAt := none,
              pauseLastReason := none, plannedResumeAt := none, abandonedReason := none,
              isActive := true, note := p.note, source := "clock", durationMinutes := none,
              createdAt := some now, updatedAt := some now }
          let s1 : St := { s with entries := s.entries ++ [doc] }
          let rate := getEffectiveRate s1 u.company p.jobId employeeId
          let assignUpd : Assignment → Assignment := fun a =>
            { a with state := "in_progress", stateChangedAt := some now2, updatedAt := some now2 }
          let act : Activity :=
            { company := u.company, employee := employeeId, job := some p.jobId,
              jobName := some job.name, action := "started",
              actorUserId := some u.id, note := none, createdAt := now2 }
          let s2 : St :=
            { s1 with
              assignments := updateFirst
                (fun a => a.company == u.company && a.job == some p.jobId && a.employee == employeeId)
                assignUpd s1.assignments,
              activities := s1.activities ++ [act] }
          let out : TimeEntryOut :=
            { id := newId, jobId := p.jobId, employeeId := employeeId,
              startTs := some doc.startTs, endTs := none,
              breakMinutes := 0, pausedMinutes := some 0,
              isActive := true, onBreak := false, onPause := some false,
              state := some "active", plannedResumeAt := none, pauseReason := none,
              durationMinutes := none, note := doc.note, rate := some rate, amount := none }
          (.ok out, s2)

/-- POST `/entries/break/start`. -/
def breakStart (s : St) (u : User) (now : Ts) : Except Err TimeEntryOut × St :=
  match getCurrentEmployeeId s u with
  | none => (.error (.badRequest "No employee profile linked to your account"), s)
  | some employeeId =>
    match findActiveEntry s u.company employeeId with
    | none => (.error (.badRequest "No active time entry to start a break"), s)
    | some ent =>
      if ent.pausedStartedAt.isSome then
        (.error (.badRequest "Cannot start a break while job is paused"), s)
      else if ent.breakStartedAt.isSome then
        (.error (.badRequest "Already on a break"), s)
      else
        let upd : TimeEntry → TimeEntry := fun t =>
          { t with breakStartedAt := some now, updatedAt := some now }
        let s1 : St := { s with entries := updateFirst (fun t => t.id == ent.id) upd s.entries }
        match s1.entries.find? (fun t => t.id == ent.id) with
        | none => (.error .internalError, s1)
        | some entF =>
          let rate := getEffectiveRate s1 u.company entF.job employeeId
          let out : TimeEntryOut :=
            { id := entF.id, jobId := entF.job, employeeId := employeeId,
              startTs := some entF.startTs, endTs := entF.endTs,
              breakMinutes := entF.breakMinutes, pausedMinutes := some entF.pausedMinutes,
              isActive := true, onBreak := true, onPause := some false,
              state := none, plannedResumeAt := entF.plannedResumeAt, pauseReason := none,
              durationMinutes := none, note := entF.note, rate := some rate, amount := none }
          (.ok out, s1)

/-- POST `/entries/break/end`. -/
def breakEnd (s : St) (u : User) (now : Ts) : Except Err TimeEntryOut × St :=
  match getCurrentEmployeeId s u with
  | none => (.error (.badRequest "No employee profile linked to your account"), s)
  | some employeeId =>
    match findActiveEntry s u.company employeeId with
    | none => (.error (.badRequest "Not currently on a break"), s)
    | some ent =>
      match ent.breakStartedAt with
      | none => (.error (.badRequest "Not currently on a break"), s)
      | some bst =>
        let addMinutes := max 0 (elapsedMins bst now)
        let newTotal := ent.breakMinutes + addMinutes
        let upd : TimeEntry → TimeEntry := fun t =>
          { t with breakMinutes := newTotal, breakStartedAt := none, updatedAt := some now }
        let s1 : St := { s with entries := updateFirst (fun t => t.id == ent.id) upd s.entries }
        match s1.entries.find? (fun t => t.id == ent.id) with
        | none => (.error .internalError, s1)
        | some entF =>
          let rate := getEffectiveRate s1 u.company entF.job employeeId
          let out : TimeEntryOut :=
            { id := entF.id, jobId := entF.job, employeeId := employeeId,
              startTs := some entF.startTs, endTs := entF.endTs,
              breakMinutes := entF.breakMinutes, pausedMinutes := some entF.pausedMinutes,
              isActive := true, onBreak := false, onPause := some entF.pausedStartedAt.isSome,
              state := none, plannedResumeAt := entF.plannedResumeAt, pauseReason := none,
              durationMinutes := none, note := entF.note, rate := some rate, amount := none }
          (.ok out, s1)

/-- POST `/entries/clock-out`.  The open break is closed in memory and the
result persisted; the open pause span is closed only in memory: the `$set`
contains neither `paused_minutes` nor `paused_started_at`. -/
def clockOut (s : St) (u : User) (now now2 : Ts) : Except Err TimeEntryOut × St :=
  match getCurrentEmployeeId s u with
  | none => (.error (.badRequest "No employee profile linked to your account"), s)
  | some employeeId =>
    match findActiveEntry s u.company employeeId with
    | none => (.error (.badRequest "No active time entry to clock out"), s)
    | some ent0 =>
      let ent1 : TimeEntry :=
        match ent0.breakStartedAt with
        | some bst =>
          { ent0 with breakMinutes := ent0.breakMinutes + max 0 (elapsedMins bst now),
                      breakStartedAt := none }
        | none => ent0
      let ent2 : TimeEntry :=
        match ent1.pausedStartedAt with
        | some pst =>
          { ent1 with pausedMinutes := ent1.pausedMinutes + max 0 (elapsedMins pst now),
                      pausedStartedAt := none }
        | none => ent1
      let dur0 := max 0 (elapsedMins ent2.startTs now - ent2.breakMinutes)
      let dur := max 0 (dur0 - ent2.pausedMinutes)
      let upd : TimeEntry → TimeEntry := fun t =>
        { t with endTs := some now, isActive := false,
                 breakMinutes := ent2.breakMinutes, durationMinutes := some dur,
                 updatedAt := some now, breakStartedAt := none }
      let s1 : St := { s with entries := updateFirst (fun t => t.id == ent0.id) upd s.entries }
      match s1.entries.find? (fun t => t.id == ent0.id) with
      | none => (.error .internalError, s1)
      | some entF =>
        let rate := getEffectiveRate s1 u.company entF.job employeeId
        let amount : ℚ := if dur = 0 then 0 else round2 ((dur : ℚ) / 60 * rate)
        let job := s1.jobs.find? (fun j => j.id == entF.job && j.company == u.company)
        let assignUpd : Assignment → Assignment := fun a =>
          { a with state := "done", stateChangedAt := some now2, updatedAt := some now2 }
        let act : Activity :=
          { company := u.company, employee := employeeId, job := some entF.job,
            jobName := job.map (·.name), action := "done",
            actorUserId := some u.id, note := none, createdAt := now2 }
        let s2 : St :=
          { s1 with
            assignments := updateFirst
              (fun a => a.company == u.company && a.job == some entF.job && a.employee == employeeId)
              assignUpd s1.assignments,
            activities := s1.activities ++ [act] }
        let out : TimeEntryOut :=
          { id := entF.id, jobId := entF.job, employeeId := employeeId,
            startTs := some entF.startTs, endTs := entF.endTs,
            breakMinutes := entF.breakMinutes, pausedMinutes := some entF.pausedMinutes,
            isActive := false, onBreak := false, onPause := some false,
            state := none, plannedResumeAt := none, pauseReason := none,
            durationMinutes := some (entF.durationMinutes.getD 0), note := entF.note,
            rate := some rate, amount := some amount }
        (.ok out, s2)

/-- POST `/entries/pause`.  An open break is closed only on the in-memory
dict: the `$set` writes just the pause fields, leaving the stored
`break_minutes`/`break_started_at` untouched. -/
def pauseJob (s : St) (u : User) (p : PausePayload) (now : Ts) : Except Err TimeEntryOut × St :=
  match getCurrentEmployeeId s u with
  | none => (.error (.badRequest "No employee profile linked to your account"), s)
  | some employeeId =>
    match findActiveEntry s u.company employeeId with
    | none => (.error (.badRequest "No active time entry to pause"), s)
    | some ent =>
      if ent.pausedStartedAt.isSome then
        (.error (.badRequest "Job already paused"), s)
      else
        let upd : TimeEntry → TimeEntry := fun t =>
          { t with pausedStartedAt := some now,
                   pauseLastReason := strOrNone p.reason,
                   plannedResumeAt := p.resumeAt,
                   updatedAt := some now }
        let s1 : St := { s with entries := updateFirst (fun t => t.id == ent.id) upd s.entries }
        match s1.entries.find? (fun t => t.id == ent.id) with
        | none => (.error .internalError, s1)
        | some entF =>
          let rate := getEffectiveRate s1 u.company entF.job employeeId
          let job := s1.jobs.find? (fun j => j.id == entF.job && j.company == u.company)
          let assignUpd : Assignment → Assignment := fun a =>
            { a with state := "paused", stateChangedAt := some now, updatedAt := some now }
          let act : Activity :=
            { company := u.company, employee := employeeId, job := some entF.job,
              jobName := job.map (·.name), action := "paused",
              actorUserId := some u.id, note := p.reason, createdAt := now }
          let s2 : St :=
            { s1 with
              assignments := updateFirst
                (fun a => a.company == u.company && a.job == some entF.job && a.employee == employeeId)
                assignUpd s1.assignments,
              activities := s1.activities ++ [act] }
          let out : TimeEntryOut :=
            { id := entF.id, jobId := entF.job, employeeId := employeeId,
              startTs := some entF.startTs, endTs := entF.endTs,
              breakMinutes := entF.breakMinutes, pausedMinutes := some entF.pausedMinutes,
              isActive := true, onBreak := false, onPause := some true,
              state := some "paused", plannedResumeAt := entF.plannedResumeAt,
              pauseReason := entF.pauseLastReason,
              durationMinutes := none, note := entF.note, rate := some rate, amount := none }
          (.ok out, s2)

/-- POST `/entries/resume`. -/
def resumeJob (s : St) (u : User) (now : Ts) : Except Err TimeEntryOut × St :=
  match getCurrentEmployeeId s u with
  | none => (.error (.badRequest "No employee profile linked to your account"), s)
  | some employeeId =>
    match findActiveEntry s u.company employeeId with
    | none => (.error (.badRequest "No paused time entry to resume"), s)
    | some ent =>
      match ent.pausedStartedAt with
      | none => (.error (.badRequest "No paused time entry to resume"), s)
      | some pst =>
        let addMinutes := max 0 (elapsedMins pst now)
        let newTotal := ent.pausedMinutes + addMinutes
        let upd : TimeEntry → TimeEntry := fun t =>
          { t with pausedMinutes := newTotal, pausedStartedAt := none,
                   plannedResumeAt := none, updatedAt := some now }
        let s1 : St := { s with entries := updateFirst (fun t => t.id == ent.id) upd s.entries }
        match s1.entries.find? (fun t => t.id == ent.id) with
        | none => (.error .internalError, s1)
        | some entF =>
          let rate := getEffectiveRate s1 u.company entF.job employeeId
          let job := s1.jobs.find? (fun j => j.id == entF.job && j.company == u.company)
          let assignUpd : Assignment → Assignment := fun a =>
            { a with state := "in_progress", stateChangedAt := some now, updatedAt := some now }
          let act : Activity :=
            { company := u.company, employee := employeeId, job := some entF.job,
              jobName := job.map (·.name), action := "resumed",
              actorUserId := some u.id, note := none, createdAt := now }
          let s2 : St :=
            { s1 with
              assignments := updateFirst
                (fun a => a.company == u.company && a.job == some entF.job && a.employee == employeeId)
                assignUpd s1.assignments,
              activities := s1.activities ++ [act] }
          let out : TimeEntryOut :=
            { id := entF.id, jobId := entF.job, employeeId := employeeId,
              startTs := some entF.startTs, endTs := entF.endTs,
              breakMinutes := entF.breakMinutes, pausedMinutes := some entF.pausedMinutes,
              isActive := true, onBreak := false, onPause := some false,
              state := some "active", plannedResumeAt := none, pauseReason := none,
              durationMinutes := none, note := entF.note, rate := some rate, amount := none }
          (.ok out, s2)

/-- POST `/entries/abandon`.  Break and pause spans are committed in memory
and the minute totals persisted, but neither open-span marker is cleared in
the `$set`. -/
def abandonJob (s : St) (u : User) (p : AbandonPayload) (now : Ts) : Except Err TimeEntryOut × St :=
  match getCurrentEmployeeId s u with
  | none => (.error (.badRequest "No employee profile linked to your account"), s)
  | some employeeId =>
    match findActiveEntry s u.company employeeId with
    | none => (.error (.badRequest "No active time entry to abandon"), s)
    | some ent0 =>
      let ent1 : TimeEntry :=
        match ent0.breakStartedAt with
        | some bst =>
          { ent0 with breakMinutes := ent0.breakMinutes + max 0 (elapsedMins bst now),
                      breakStartedAt := none }
        | none => ent0
      let ent2 : TimeEntry :=
        match ent1.pausedStartedAt with
        | some pst =>
          { ent1 with pausedMinutes := ent1.pausedMinutes + max 0 (elapsedMins pst now),
                      pausedStartedAt := none }
        | none => ent1
      let dur := max 0 (elapsedMins ent2.startTs now - ent2.breakMinutes - ent2.pausedMinutes)
      let upd : TimeEntry → TimeEntry := fun t =>
        { t with endTs := some now, isActive := false,
                 breakMinutes := ent2.breakMinutes, pausedMinutes := ent2.pausedMinutes,
                 durationMinutes := some dur, updatedAt := some now,
                 abandonedReason := strOrNone p.reason }
      let s1 : St := { s with entries := updateFirst (fun t => t.id == ent0.id) upd s.entries }
      match s1.entries.find? (fun t => t.id == ent0.id) with
      | none => (.error .internalError, s1)
      | some entF =>
        let rate := getEffectiveRate s1 u.company entF.job employeeId
        let amount : ℚ := if dur = 0 then 0 else round2 ((dur : ℚ) / 60 * rate)
        let job := s1.jobs.find? (fun j => j.id == entF.job && j.company == u.company)
        let assignUpd : Assignment → Assignment := fun a =>
          { a with state := "canceled", stateChangedAt := some now, updatedAt := some now }
        let act : Activity :=
          { company := u.company, employee := employeeId, job := some entF.job,
            jobName := job.map (·.name), action := "abandoned",
            actorUserId := some u.id, note := p.reason, createdAt := now }
        let s2 : St :=
          { s1 with
            assignments := updateFirst
              (fun a => a.company == u.company && a.job == some entF.job && a.employee == employeeId)
              assignUpd s1.assignments,
            activities := s1.activities ++ [act] }
        let out : TimeEntryOut :=
          { id := entF.id, jobId := entF.job, employeeId := employeeId,
            startTs := some entF.startTs, endTs := entF.endTs,
            breakMinutes := entF.breakMinutes, pausedMinutes := some entF.pausedMinutes,
            isActive := false, onBreak := false, onPause := some false,
            state := some "abandoned", plannedResumeAt := none, pauseReason := none,
            durationMinutes := some (entF.durationMinutes.getD 0), note := entF.note,
            rate := some rate, amount := some amount }
        (.ok out, s2)

/-- POST `/entries` (manual creation).  The job lookup has no `active`
filter. -/
def createManualTimeEntry (s : St) (u : User) (p : ManualTimeEntryIn) (now : Ts) (newId : Nat) :
    Except Err TimeEntryOut × St :=
  match getCurrentEmployeeId s u with
  | none => (.error (.badRequest "No employee profile linked to your account"), s)
  | some employeeId =>
    match s.jobs.find? (fun j => j.id == p.jobId && j.company == u.company) with
    | none => (.error (.badRequest "Invalid job"), s)
    | some _ =>
      if p.endTs.sec ≤ p.startTs.sec then
        (.error (.badRequest "end_ts must be after start_ts"), s)
      else
        let dur := max 0 (elapsedMins p.startTs p.endTs - p.breakMinutes)
        let doc : TimeEntry :=
          { id := newId, company := u.company, employee := employeeId, job := p.jobId,
            date := startOfDay p.startTs, startTs := p.startTs, endTs := some p.endTs,
            breakMinutes := p.breakMinutes, breakStartedAt := none,
            pausedMinutes := 0, pausedStartedAt := none,
            pauseLastReason := none, plannedResumeAt := none, abandonedReason := none,
            isActive := false, note := p.note, source := "manual", durationMinutes := some dur,
            createdAt := some now, updatedAt := some now }
        let s1 : St := { s with entries := s.entries ++ [doc] }
        let rate := getEffectiveRate s1 u.company p.jobId employeeId
        let amount : ℚ := if dur = 0 then 0 else round2 ((dur : ℚ) / 60 * rate)
        let out : TimeEntryOut :=
          { id := newId, jobId := p.jobId, employeeId := employeeId,
            startTs := some doc.startTs, endTs := doc.endTs,
            breakMinutes := doc.breakMinutes, pausedMinutes := none,
            isActive := false, onBreak := false, onPause := none,
            state := none, plannedResumeAt := none, pauseReason := none,
            durationMinutes := some dur, note := doc.note,
            rate := some rate, amount := some amount }
        (.ok out, s1)

/-- PATCH `/entries/{entry_id}` (manual edit). -/
def updateManualTimeEntry (s : St) (u : User) (entryId : Nat) (p : ManualTimeEntryUpdate)
    (now : Ts) : Except Err TimeEntryOut × St :=
  match getCurrentEmployeeId s u with
  | none => (.error (.badRequest "No employee profile linked to your account"), s)
  | some employeeId =>
    match s.entries.find? (fun t =>
        t.id == entryId && t.company == u.company && t.employee == employeeId) with
    | none => (.error (.notFound "Time entry not found"), s)
    | some ent =>
      if ent.source != "manual" then
        (.error (.badRequest "Only manual entries can be edited"), s)
      else
        let start := p.startTs.getD ent.startTs
        let endV : Option Ts := match p.endTs with | some e => some e | none => ent.endTs
        match endV with
        | none => (.error .internalError, s)
        | some e =>
          if e.sec ≤ start.sec then
            (.error (.badRequest "end_ts must be after start_ts"), s)
          else
            let breakM := p.breakMinutes.getD ent.breakMinutes
            let dur := max 0 (elapsedMins start e - breakM)
            let upd : TimeEntry → TimeEntry := fun t =>
              { t with
                startTs := p.startTs.getD t.startTs,
                endTs := match p.endTs with | some e2 => some e2 | none => t.endTs,
                breakMinutes := p.breakMinutes.getD t.breakMinutes,
                note := match p.note with | some n => some n | none => t.note,
                durationMinutes := some dur,
                date := startOfDay start,
                updatedAt := some now }
            let s1 : St := { s with entries := updateFirst (fun t => t.id == ent.id) upd s.entries }
            match s1.entries.find? (fun t => t.id == ent.id) with
            | none => (.error .internalError, s1)
            | some entF =>
              let rate := getEffectiveRate s1 u.company entF.job employeeId
              let durStored := entF.durationMinutes.getD 0
              let amount : ℚ := if durStored = 0 then 0 else round2 ((durStored : ℚ) / 60 * rate)
              let out : TimeEntryOut :=
                { id := entF.id, jobId := entF.job, employeeId := employeeId,
                  startTs := some entF.startTs, endTs := entF.endTs,
                  breakMinutes := entF.breakMinutes, pausedMinutes := none,
                  isActive := false, onBreak := false, onPause := none,
                  state := none, plannedResumeAt := none, pauseReason := none,
                  durationMinutes := some durStored, note := entF.note,
                  rate := some rate, amount := some amount }
              (.ok out, s1)

/-- Does an `assigned` activity row exist for this (company, employee, job)
tuple? (the `exists` probe of the backfill). -/
def hasAssignedActivity (acts : List Activity) (company employee jobId : Nat) : Bool :=
  (acts.find? (fun ev => ev.company == company && ev.employee == employee &&
    ev.job == some jobId && ev.action == "assigned")).isSome

/-- The synthetic `assigned` event the backfill builds from an assignment:
`created_at` from the assignment timestamps (falling back to `utcnow()`),
the job name snapshot from a job lookup, no actor. -/
def backfillEvent (company employee : Nat) (jobs : List Job) (now : Ts)
    (a : Assignment) (jobId : Nat) : Activity :=
  let created : Ts :=
    match a.createdAt with
    | some c => c
    | none =>
      match a.updatedAt with
      | some u2 => u2
      | none => now
  let job := jobs.find? (fun j => j.id == jobId && j.company == company)
  { company := company, employee := employee, job := some jobId,
    jobName := job.map (·.name), action := "assigned",
    actorUserId := none, note := none, createdAt := created }

/-- The cursor loop of `_backfill_assignment_activity`, threading the
activity collection. -/
def backfillLoop (company employee : Nat) (jobs : List Job) (now : Ts)
    (acts : List Activity) : List Assignment → List Activity
  | [] => acts
  | a :: rest =>
    match a.job with
    | none => backfillLoop company employee jobs now acts rest
    | some jobId =>
      if hasAssignedActivity acts company employee jobId then
        backfillLoop company employee jobs now acts rest
      else
        backfillLoop company employee jobs now
          (acts ++ [backfillEvent company employee jobs now a jobId]) rest

/-- `_backfill_assignment_activity`: synthesize a missing `assigned` event
for each of the employee's assignments. -/
def backfillAssignmentActivity (s : St) (company employee : Nat) (now : Ts) : St :=
  let mine := s.assignments.filter (fun a => a.company == company && a.employee == employee)
  { s with activities := backfillLoop company employee s.jobs now s.activities mine }

/-- `year, mon = [int(x) for x in month.split("-")]` followed by the two
`datetime` constructions.  `String.toInt?` stands for Python `int()` (exotic
literal forms such as embedded underscores or surrounding whitespace are not
modelled); the bounds are the `datetime` year range 1..9999, including the
overflow of `datetime(year + 1, 1, 1)` for `9999-12`. -/
def parseMonth (month : String) : Option (Int × Int) :=
  match month.splitOn "-" with
  | [a, b] =>
    match a.toInt?, b.toInt? with
    | some y, some m =>
      if 1 ≤ y && y ≤ 9999 && 1 ≤ m && m ≤ 12 && !(y == 9999 && m == 12) then some (y, m)
      else none
    | _, _ => none
  | _ => none

/-- `$ifNull: ["$duration_minutes", 0]`. -/
def durOrZero (t : TimeEntry) : Int :=
  t.durationMinutes.getD 0

/-- First value stored under a key in an association list. -/
def lookupA [DecidableEq κ] (k : κ) : List (κ × α) → Option α
  | [] => none
  | (k', v) :: rest => if k' = k then some v else lookupA k rest

/-- `results.setdefault(k, d)` followed by an in-place update `f`: rewrite
the first binding of `k`, or append `(k, f d)` when `k` is absent. -/
def upsertA [DecidableEq κ] (k : κ) (d : α) (f : α → α) : List (κ × α) → List (κ × α)
  | [] => [(k, f d)]
  | (k', v) :: rest => if k' = k then (k', f v) :: rest else (k', v) :: upsertA k d f rest

/-- The keys of an association list, in order. -/
def keysA (l : List (κ × α)) : List κ :=
  l.map Prod.fst

/-- Accumulate a stream of items into an insertion-ordered dictionary keyed
by `key`, combining with `comb` starting from `d` — the shape shared by the
`$group` stage and by the per-job `results` dict of the billing report. -/
def dictFold [DecidableEq κ] (key : β → κ) (d : α) (comb : α → β → α)
    (acc : List (κ × α)) : List β → List (κ × α)
  | [] => acc
  | b :: bs => dictFold key d comb (upsertA (key b) d (fun v => comb v b) acc) bs

/-- The `$match` filter of the billing pipeline: company, `date` in the
half-open range, and the optional job restriction. -/
def billingMatch (company : Nat) (startD endD : CalDate) (jobFilter : Option Nat)
    (t : TimeEntry) : Bool :=
  t.company == company && CalDate.ble startD t.date && CalDate.blt t.date endD &&
    (match jobFilter with | some j => t.job == j | none => true)

/-- The `$group` stage: minutes summed per (job, employee), null durations
as zero.  The store leaves group order unspecified; it is determinized here
to first-appearance order of the keys. -/
def billingGroups (s : St) (company : Nat) (startD endD : CalDate) (jobFilter : Option Nat) :
    List ((Nat × Nat) × Int) :=
  dictFold (fun t => (t.job, t.employee)) 0 (fun acc t => acc + durOrZero t) []
    (s.entries.filter (billingMatch company startD endD jobFilter))

/-- One element of a job's `by_employee` list. -/
structure EmpLine where
  employee : Nat
  minutes : Int
  rate : ℚ
  amount : ℚ
deriving DecidableEq

/-- The per-job accumulator of the `results` dict. -/
structure JobAgg where
  minutes : Int
  amount : ℚ
  byEmployee : List EmpLine
deriving DecidableEq

/-- `setdefault` default: `{"minutes": 0, "amount": 0.0, "by_employee": []}`. -/
def emptyJobAgg : JobAgg :=
  { minutes := 0, amount := 0, byEmployee := [] }

/-- The `by_employee` element built for one group row: resolved rate and
rounded amount. -/
def lineOf (s : St) (company : Nat) (row : (Nat × Nat) × Int) : EmpLine :=
  { employee := row.1.2, minutes := row.2,
    rate := getEffectiveRate s company row.1.1 row.1.2,
    amount := round2 ((row.2 : ℚ) / 60 * getEffectiveRate s company row.1.1 row.1.2) }

/-- The body of the aggregation loop for one group row: resolve the rate,
round the group amount, and fold it into the job's accumulator. -/
def addGroupRow (s : St) (company : Nat) (agg : JobAgg) (row : (Nat × Nat) × Int) : JobAgg :=
  { minutes := agg.minutes + row.2,
    amount := round2 (agg.amount + (lineOf s company row).amount),
    byEmployee := agg.byEmployee ++ [lineOf s company row] }

/-- The `results` dict of the billing report, keyed by job. -/
def billingJobAggs (s : St) (company : Nat) (startD endD : CalDate) (jobFilter : Option Nat) :
    List (Nat × JobAgg) :=
  dictFold (fun (row : (Nat × Nat) × Int) => row.1.1) emptyJobAgg (addGroupRow s company) []
    (billingGroups s company startD endD jobFilter)

/-- A row of the billing response. -/
structure JobRow where
  jobId : Nat
  jobName : String
  clientName : Option String
  minutes : Int
  hours : ℚ
  amount : ℚ
  byEmployee : List EmpLine
deriving DecidableEq

/-- The billing response. -/
structure BillingOut where
  month : String
  jobs : List JobRow
deriving DecidableEq

/-- The response row built for one job of the `results` dict: job info
attached by a lookup without a company filter, exactly as in the source. -/
def jobRowOf (s : St) (pr : Nat × JobAgg) : JobRow :=
  let job := s.jobs.find? (fun j => j.id == pr.1)
  { jobId := pr.1,
    jobName := (job.map (·.name)).getD "",
    clientName := job.bind (·.clientName),
    minutes := pr.2.minutes,
    hours := round2 ((pr.2.minutes : ℚ) / 60),
    amount := pr.2.amount,
    byEmployee := pr.2.byEmployee }

/-- GET `/reports/billing`.  Read-only: no state is returned because the
handler performs no writes. -/
def billingReport (s : St) (u : User) (month : String) (jobFilter : Option Nat) :
    Except Err BillingOut :=
  if !isAdminLike u.role then .error (.forbidden "Forbidden")
  else
    match parseMonth month with
    | none => .error (.badRequest "Invalid month format")
    | some (year, mon) =>
      let startD : CalDate := ⟨year, mon, 1⟩
      let endD : CalDate :=
        ⟨year + (if mon == 12 then 1 else 0), if mon == 12 then 1 else mon + 1, 1⟩
      let aggs := billingJobAggs s u.company startD endD jobFilter
      .ok { month := month, jobs := aggs.map (jobRowOf s) }

/-- The mutual-exclusion invariant of the spec: a stored entry is never
simultaneously on break and on pause. -/
def breakPauseExclusive (t : TimeEntry) : Bool :=
  !(t.breakStartedAt.isSome && t.pausedStartedAt.isSome)

/-- The invariant over the whole store. -/
def stInvariant (s : St) : Bool :=
  s.entries.all breakPauseExclusive

/-- Spec-side month membership: the date's calendar month is (y, m) —
"`date` falls within [month, month+1)". -/
def inCalendarMonthB (y m : Int) (d : CalDate) : Bool :=
  d.y == y && d.m == m

/-- A `date` value that a real timestamp can produce: month 1..12, day ≥ 1. -/
def validCalDate (d : CalDate) : Prop :=
  1 ≤ d.m ∧ d.m ≤ 12 ∧ 1 ≤ d.d

instance instDecidableValidCalDate (d : CalDate) : Decidable (validCalDate d) :=
  inferInstanceAs (Decidable (1 ≤ d.m ∧ d.m ≤ 12 ∧ 1 ≤ d.d))

/-- Spec-side selection of the billing report: company, calendar month, and
the optional job restriction. -/
def specSelected (s : St) (company : Nat) (y m : Int) (jobFilter : Option Nat) :
    List TimeEntry :=
  s.entries.filter (fun t => t.company == company && inCalendarMonthB y m t.date &&
    (match jobFilter with | some j => t.job == j | none => true))

/-- Spec-side minutes of one (job, employee) billing group: the sum of
`duration_minutes` (null as zero) over the selected entries of that pair. -/
def specGroupMinutes (s : St) (company : Nat) (y m : Int) (jobFilter : Option Nat)
    (j e : Nat) : Int :=
  (((specSelected s company y m jobFilter).filter
      (fun t => t.job == j && t.employee == e)).map durOrZero).sum

/-- Concrete fixtures: a calendar day and timestamps on it. -/
def dOct : CalDate := ⟨2025, 10, 1⟩

/-- A timestamp `n` seconds into the fixture day. -/
def tsAt (n : Int) : Ts := ⟨n, dOct⟩

/-- A staff caller. -/
def uEmp : User := { id := 10, company := 1, role := "employee" }

/-- An admin caller of the same company. -/
def uAdm : User := { id := 11, company := 1, role := "admin" }

/-- The staff caller's employee profile. -/
def empRec : Employee := { id := 100, company := 1, userId := 10 }

/-- An active job. -/
def jobA : Job := { id := 20, company := 1, name := "Job A", clientName := none,
                    defaultRate := 10, active := true }

/-- An inactive job. -/
def jobB : Job := { id := 21, company := 1, name := "Job B", clientName := none,
                    defaultRate := 15, active := false }

/-- An active clock entry, currently paused (paused one hour after start). -/
def basePausedEntry : TimeEntry :=
  { id := 200, company := 1, employee := 100, job := 20, date := dOct,
    startTs := tsAt 0, endTs := none, breakMinutes := 0, breakStartedAt := none,
    pausedMinutes := 0, pausedStartedAt := some (tsAt 3600),
    pauseLastReason := none, plannedResumeAt := none, abandonedReason := none,
    isActive := true, note := none, source := "clock", durationMinutes := none,
    createdAt := some (tsAt 0), updatedAt := some (tsAt 0) }

/-- An active clock entry, currently on break (break started one hour after
start). -/
def baseBreakEntry : TimeEntry :=
  { basePausedEntry with breakStartedAt := some (tsAt 3600), pausedStartedAt := none }

/-- Store with the paused entry. -/
def stPaused : St :=
  { employees := [empRec], jobs := [jobA], jobRates := [], entries := [basePausedEntry],
    assignments := [], activities := [] }

/-- Store with the on-break entry. -/
def stOnBreak : St := { stPaused with entries := [baseBreakEntry] }

/-- A closed manual entry of the staff employee (2 hours, no break). -/
def manualEntry : TimeEntry :=
  { basePausedEntry with id := 210, pausedStartedAt := none, isActive := false,
                         endTs := some (tsAt 7200), source := "manual",
                         durationMinutes := some 120 }

/-- Store with the manual entry. -/
def stManual : St := { stPaused with entries := [manualEntry] }

/-- Store with both jobs and no entries (job 21 inactive). -/
def stJobs : St := { stPaused with jobs := [jobA, jobB], entries := [] }

/-- Store with rate overrides: employee 101 has 15, employee 102 a
non-numeric rate. -/
def stRates : St :=
  { stPaused with jobRates := [⟨1, 20, 101, some 15⟩, ⟨1, 20, 102, none⟩] }

/-- A closed clock entry for billing fixtures. -/
def mkClosed (i emp : Nat) (mins : Int) : TimeEntry :=
  { basePausedEntry with id := i, employee := emp, pausedStartedAt := none,
                         isActive := false, endTs := some (tsAt 9000),
                         durationMinutes := some mins }

/-- Billing fixture: two closed entries in 2025-10 (employees 100 and 101 on
job 20), one open entry, one closed entry in 2025-11; employee 101 has a
rate override. -/
def stBill : St :=
  { stPaused with
    entries := [mkClosed 201 100 90, mkClosed 202 101 45, { basePausedEntry with id := 203 },
                { (mkClosed 204 100 30) with date := ⟨2025, 11, 2⟩ }],
    jobRates := [{ company := 1, job := 20, employee := 101, rate := some 15 }] }

/-- `update_one` rewrites exactly the document `find_one` returns, so a
refetch with the same filter sees the updated document (provided it still
matches). -/
theorem find?_updateFirst_self (p : α → Bool) (f : α → α) (l : List α) (x : α)
    (hx : l.find? p = some x) (hf : p (f x) = true) :
    (updateFirst p f l).find? p = some (f x) := by
  induction l with
  | nil => simp at hx
  | cons a t ih =>
    cases hpa : p a with
    | true =>
      rw [List.find?_cons_of_pos t hpa] at hx
      cases hx
      rw [updateFirst, if_pos hpa]
      exact List.find?_cons_of_pos t hf
    | false =>
      rw [List.find?_cons_of_neg t (by simp [hpa])] at hx
      rw [updateFirst, if_neg (by simp [hpa])]
      rw [List.find?_cons_of_neg (updateFirst p f t) (by simp [hpa])]
      exact ih hx

/-- C1: the claim asserts that clock-out closes any open pause span first,
committing its minutes into the stored entry.  On the fixture (started at 0,
paused at 3600, clocked out at 7200) the stored entry gets the correct
frozen `duration_minutes = 60` and the response the matching
`amount = round(60/60*10, 2) = 10`, but the `$set` of `clock_out` omits
`paused_minutes` and `paused_started_at`: the stored entry keeps
`paused_minutes = 0` and the non-null pause marker, so the open pause span
is not committed into the stored entry. -/
theorem clockOut_pause_span_not_persisted :
    ((clockOut stPaused uEmp (tsAt 7200) (tsAt 7200)).2.entries.map
        (fun t => (t.isActive, t.endTs, t.durationMinutes, t.pausedMinutes, t.pausedStartedAt)))
      = [(false, some (tsAt 7200), some 60, 0, some (tsAt 3600))] ∧
    ((clockOut stPaused uEmp (tsAt 7200) (tsAt 7200)).1.toOption.map (fun o => o.amount))
      = some (some 10) := by
  constructor
  · decide
  · with_unfolding_all decide

/-- C3: the claim asserts that pausing while on break increases the stored
`break_minutes` and nulls the stored `break_started_at` before the pause
marker is set.  On the fixture (break opened at 3600, pause at 7200) the
code computes the break close only on the in-memory dict; the `$set` writes
only the pause fields, so the stored entry keeps `break_minutes = 0` and
`break_started_at = 3600` while `paused_started_at = 7200` is set. -/
theorem pause_leaves_stored_break_open :
    ((pauseJob stOnBreak uEmp ⟨none, none⟩ (tsAt 7200)).2.entries.map
        (fun t => (t.breakMinutes, t.breakStartedAt, t.pausedStartedAt)))
      = [(0, some (tsAt 3600), some (tsAt 7200))] := by
  decide

/-- C4: the claim asserts every operation preserves "never simultaneously
on break and on pause" for stored entries.  The fixture satisfies the
invariant, and a single pause of an on-break entry breaks it: the stored
entry ends with both `break_started_at` and `paused_started_at` non-null,
because `pause_job` never persists the break close. -/
theorem pause_breaks_exclusivity_invariant :
    stInvariant stOnBreak = true ∧
    stInvariant (pauseJob stOnBreak uEmp ⟨none, none⟩ (tsAt 7200)).2 = false := by
  constructor
  · decide
  · decide

/-- C2: a clock-in issued while the employee already has an entry with
`is_active = true` (the job reference itself resolving to an active job of
the company) fails with the Conflict outcome — HTTP 400, detail "You
already have an active time entry" — and returns the store unchanged: no
entry is inserted and nothing else is written. -/
theorem clockIn_conflict_on_active_entry (s : St) (u : User) (p : ClockInPayload)
    (now now2 : Ts) (newId : Nat) (emp : Nat)
    (hEmp : getCurrentEmployeeId s u = some emp) (jb : Job)
    (hJob : s.jobs.find? (fun j => j.id == p.jobId && j.company == u.company && j.active) = some jb)
    (ent : TimeEntry) (hAct : findActiveEntry s u.company emp = some ent) :
    clockIn s u p now now2 newId
      = (.error (.badRequest "You already have an active time entry"), s) := by
  simp only [clockIn, hEmp, hJob, hAct]

/-- Witness for C2 on the paused-entry fixture. -/
theorem clockIn_conflict_on_active_entry_witness :
    clockIn stPaused uEmp ⟨20, none⟩ (tsAt 1) (tsAt 2) 300
      = (.error (.badRequest "You already have an active time entry"), stPaused) :=
  clockIn_conflict_on_active_entry stPaused uEmp ⟨20, none⟩ (tsAt 1) (tsAt 2) 300 100
    (by decide) jobA (by decide) basePausedEntry (by decide)

/-- C5: when the caller's active entry is paused, resume updates the stored
entry to `paused_minutes += max(0, floor(minutes(now - paused_started_at)))`
and clears `paused_started_at` and `planned_resume_at`; when the caller has
no paused active entry (no active entry at all, or an active entry without a
pause marker), resume fails and the store is returned unchanged. -/
theorem resumeJob_commits_pause_or_fails (s : St) (u : User) (now : Ts) :
    (∀ emp ent pst, getCurrentEmployeeId s u = some emp →
      findActiveEntry s u.company emp = some ent →
      s.entries.find? (fun t => t.id == ent.id) = some ent →
      ent.pausedStartedAt = some pst →
      (resumeJob s u now).2.entries.find? (fun t => t.id == ent.id) =
        some { ent with pausedMinutes := ent.pausedMinutes + max 0 (elapsedMins pst now),
                        pausedStartedAt := none, plannedResumeAt := none,
                        updatedAt := some now }) ∧
    (∀ emp, getCurrentEmployeeId s u = some emp →
      (findActiveEntry s u.company emp).all (fun ent => ent.pausedStartedAt == none) = true →
      resumeJob s u now = (.error (.badRequest "No paused time entry to resume"), s)) := by
  constructor
  · intro emp ent pst hEmp hAct hFind hPst
    have hupd := find?_updateFirst_self (fun t => t.id == ent.id)
      (fun t => { t with pausedMinutes := ent.pausedMinutes + max 0 (elapsedMins pst now),
                         pausedStartedAt := none, plannedResumeAt := none,
                         updatedAt := some now })
      s.entries ent hFind (by simp)
    simp only [resumeJob, hEmp, hAct, hPst, hupd]
  · intro emp hEmp hNP
    cases hAct : findActiveEntry s u.company emp with
    | none => simp only [resumeJob, hEmp, hAct]
    | some ent =>
      rw [hAct] at hNP
      have hPst : ent.pausedStartedAt = none := by simpa using hNP
      simp only [resumeJob, hEmp, hAct, hPst]

/-- Witness for C5: the paused fixture commits 60 minutes and clears the
markers; the on-break fixture (active but unpaused) fails unchanged. -/
theorem resumeJob_commits_pause_or_fails_witness :
    (resumeJob stPaused uEmp (tsAt 7200)).2.entries.find? (fun t => t.id == basePausedEntry.id) =
      some { basePausedEntry with pausedMinutes := 60, pausedStartedAt := none,
                                  plannedResumeAt := none, updatedAt := some (tsAt 7200) } ∧
    resumeJob stOnBreak uEmp (tsAt 7200)
      = (.error (.badRequest "No paused time entry to resume"), stOnBreak) := by
  constructor
  · have h := (resumeJob_commits_pause_or_fails stPaused uEmp (tsAt 7200)).1 100
      basePausedEntry (tsAt 3600) (by decide) (by decide) (by decide) (by decide)
    exact h.trans (by decide)
  · exact (resumeJob_commits_pause_or_fails stOnBreak uEmp (tsAt 7200)).2 100
      (by decide) (by decide)

/-- C7: the rate resolver returns the JobRate override when the record is
found and carries a numeric rate; otherwise (no record, or a record without
a numeric rate) it returns the job's `default_rate` when the job exists and
`0.0` when it does not.  It is a pure function of the store — it performs no
writes and raises no error (its result type has no error case). -/
theorem getEffectiveRate_resolves (s : St) (c j e : Nat) :
    (∀ jr r,
      s.jobRates.find? (fun x => x.company == c && x.job == j && x.employee == e) = some jr →
      jr.rate = some r → getEffectiveRate s c j e = r) ∧
    ((s.jobRates.find? (fun x => x.company == c && x.job == j && x.employee == e)).bind
        (fun jr => jr.rate) = none →
      (∀ jb, s.jobs.find? (fun x => x.id == j && x.company == c) = some jb →
        getEffectiveRate s c j e = jb.defaultRate) ∧
      (s.jobs.find? (fun x => x.id == j && x.company == c) = none →
        getEffectiveRate s c j e = 0)) := by
  constructor
  · intro jr r hFind hRate
    simp only [getEffectiveRate, hFind, hRate]
  · intro hNone
    constructor
    · intro jb hJob
      cases hFind : s.jobRates.find? (fun x => x.company == c && x.job == j && x.employee == e) with
      | none => simp only [getEffectiveRate, hFind, hJob]
      | some jr =>
        rw [hFind] at hNone
        have hRate : jr.rate = none := by simpa using hNone
        simp only [getEffectiveRate, hFind, hRate, hJob]
    · intro hJob
      cases hFind : s.jobRates.find? (fun x => x.company == c && x.job == j && x.employee == e) with
      | none => simp only [getEffectiveRate, hFind, hJob]
      | some jr =>
        rw [hFind] at hNone
        have hRate : jr.rate = none := by simpa using hNone
        simp only [getEffectiveRate, hFind, hRate, hJob]

/-- Witness for C7 on the override fixture: numeric override wins; a
non-numeric override and a missing record fall back to the default rate; a
missing job yields zero. -/
theorem getEffectiveRate_resolves_witness :
    getEffectiveRate stRates 1 20 101 = 15 ∧ getEffectiveRate stRates 1 20 102 = 10 ∧
    getEffectiveRate stRates 1 20 100 = 10 ∧ getEffectiveRate stRates 1 99 100 = 0 := by
  refine ⟨?_, ?_, ?_, ?_⟩
  · exact (getEffectiveRate_resolves stRates 1 20 101).1 ⟨1, 20, 101, some 15⟩ 15
      (by decide) rfl
  · exact (((getEffectiveRate_resolves stRates 1 20 102).2 (by decide)).1 jobA
      (by decide)).trans (by decide)
  · exact (((getEffectiveRate_resolves stRates 1 20 100).2 (by decide)).1 jobA
      (by decide)).trans (by decide)
  · exact ((getEffectiveRate_resolves stRates 1 99 100).2 (by decide)).2 (by decide)

/-- C8: editing an entry found for the caller fails with the "not editable"
error and an unchanged store when `source ≠ "manual"`; for a manual entry it
re-validates `end_ts > start_ts` on the merged fields (failing with the
validation error and an unchanged store otherwise) and, when valid, stores
the merged fields with recomputed
`duration_minutes = max(0, minutes(end - start) - break_minutes)` and
`date = start_of_day(start)`. -/
theorem updateManual_requires_manual_and_recomputes (s : St) (u : User) (entryId : Nat)
    (p : ManualTimeEntryUpdate) (now : Ts) :
    ∀ emp ent, getCurrentEmployeeId s u = some emp →
      s.entries.find? (fun t =>
        t.id == entryId && t.company == u.company && t.employee == emp) = some ent →
      ((ent.source ≠ "manual" →
        updateManualTimeEntry s u entryId p now
          = (.error (.badRequest "Only manual entries can be edited"), s)) ∧
       (ent.source = "manual" →
        ∀ e, (match p.endTs with | some x => some x | none => ent.endTs) = some e →
          ((e.sec ≤ (p.startTs.getD ent.startTs).sec →
            updateManualTimeEntry s u entryId p now
              = (.error (.badRequest "end_ts must be after start_ts"), s)) ∧
           ((p.startTs.getD ent.startTs).sec < e.sec →
            s.entries.find? (fun t => t.id == ent.id) = some ent →
            (updateManualTimeEntry s u entryId p now).2.entries.find?
                (fun t => t.id == ent.id) =
              some { ent with
                startTs := p.startTs.getD ent.startTs,
                endTs := some e,
                breakMinutes := p.breakMinutes.getD ent.breakMinutes,
                note := match p.note with | some n => some n | none => ent.note,
                durationMinutes := some (max 0 (elapsedMins (p.startTs.getD ent.startTs) e -
                  p.breakMinutes.getD ent.breakMinutes)),
                date := startOfDay (p.startTs.getD ent.startTs),
                updatedAt := some now })))) := by
  intro emp ent hEmp hFindEnt
  constructor
  · intro hSrc
    have hSrcB : (ent.source != "manual") = true := by
      simpa using hSrc
    simp only [updateManualTimeEntry, hEmp, hFindEnt, hSrcB, if_true]
  · intro hSrc e hEnd
    have hSrcB : (ent.source != "manual") = false := by
      simp [hSrc]
    constructor
    · intro hLe
      simp only [updateManualTimeEntry, hEmp, hFindEnt, hSrcB, Bool.false_eq_true, if_false,
        hEnd, if_pos hLe]
    · intro hLt hFind
      have hupd := find?_updateFirst_self (fun t => t.id == ent.id)
        (fun t => { t with
          startTs := p.startTs.getD t.startTs,
          endTs := match p.endTs with | some e2 => some e2 | none => t.endTs,
          breakMinutes := p.breakMinutes.getD t.breakMinutes,
          note := match p.note with | some n => some n | none => t.note,
          durationMinutes := some (max 0 (elapsedMins (p.startTs.getD ent.startTs) e -
            p.breakMinutes.getD ent.breakMinutes)),
          date := startOfDay (p.startTs.getD ent.startTs),
          updatedAt := some now })
        s.entries ent hFind (by simp)
      simp only [updateManualTimeEntry, hEmp, hFindEnt, hSrcB, Bool.false_eq_true, if_false,
        hEnd, if_neg (not_le.mpr hLt), hupd]

/-- Witness for C8: editing the clock entry fails; editing the manual entry
with a new end and break recomputes duration 150 and the date. -/
theorem updateManual_requires_manual_and_recomputes_witness :
    updateManualTimeEntry stPaused uEmp 200 ⟨none, some (tsAt 10800), some 30, none⟩ (tsAt 10900)
      = (.error (.badRequest "Only manual entries can be edited"), stPaused) ∧
    (updateManualTimeEntry stManual uEmp 210 ⟨none, some (tsAt 10800), some 30, none⟩
        (tsAt 10900)).2.entries.find? (fun t => t.id == manualEntry.id) =
      some { manualEntry with endTs := some (tsAt 10800), breakMinutes := 30,
                              durationMinutes := some 150, date := dOct,
                              updatedAt := some (tsAt 10900) } := by
  constructor
  · exact (updateManual_requires_manual_and_recomputes stPaused uEmp 200
      ⟨none, some (tsAt 10800), some 30, none⟩ (tsAt 10900) 100 basePausedEntry
      (by decide) (by decide)).1 (by decide)
  · have h := ((updateManual_requires_manual_and_recomputes stManual uEmp 210
      ⟨none, some (tsAt 10800), some 30, none⟩ (tsAt 10900) 100 manualEntry
      (by decide) (by decide)).2 rfl (tsAt 10800) rfl).2 (by decide) (by decide)
    exact h.trans (by decide)

/-- C10: with a job of the company whose `active` flag is false (every job
of that id being inactive), creating a manual entry succeeds — the manual
path looks the job up without an `active` filter — while clock-in for the
same job fails with the "Invalid or inactive job" error and an unchanged
store. -/
theorem manualCreate_accepts_inactive_job_clockIn_rejects (s : St) (u : User)
    (pIn : ManualTimeEntryIn) (note2 : Option String) (now now2 nowM : Ts)
    (newId newId2 : Nat) (emp : Nat) (jb : Job)
    (hEmp : getCurrentEmployeeId s u = some emp)
    (hJob : s.jobs.find? (fun j => j.id == pIn.jobId && j.company == u.company) = some jb)
    (hInact : ∀ j ∈ s.jobs, j.id = pIn.jobId → j.company = u.company → j.active = false)
    (hTs : pIn.startTs.sec < pIn.endTs.sec) :
    (∃ out s2, createManualTimeEntry s u pIn nowM newId = (.ok out, s2)) ∧
    clockIn s u ⟨pIn.jobId, note2⟩ now now2 newId2
      = (.error (.badRequest "Invalid or inactive job"), s) := by
  constructor
  · simp only [createManualTimeEntry, hEmp, hJob, if_neg (not_le.mpr hTs)]
    exact ⟨_, _, rfl⟩
  · have hNone : s.jobs.find?
        (fun j => j.id == pIn.jobId && j.company == u.company && j.active) = none := by
      rw [List.find?_eq_none]
      intro j hj
      simp only [Bool.and_eq_true, beq_iff_eq, not_and]
      intro hid hcomp
      rw [hInact j hj hid.1 hid.2] at hcomp
      simp at hcomp
    simp only [clockIn, hEmp, hNone]

/-- Witness for C10 on the two-job fixture (job 21 inactive). -/
theorem manualCreate_accepts_inactive_job_clockIn_rejects_witness :
    (∃ out s2, createManualTimeEntry stJobs uEmp ⟨21, tsAt 0, tsAt 3600, 0, none⟩
        (tsAt 3700) 400 = (.ok out, s2)) ∧
    clockIn stJobs uEmp ⟨21, none⟩ (tsAt 1) (tsAt 2) 401
      = (.error (.badRequest "Invalid or inactive job"), stJobs) :=
  manualCreate_accepts_inactive_job_clockIn_rejects stJobs uEmp
    ⟨21, tsAt 0, tsAt 3600, 0, none⟩ none (tsAt 1) (tsAt 2) (tsAt 3700) 400 401 100 jobB
    (by decide) (by decide) (by decide) (by decide)

/-- Every run of the backfill loop only appends to the activity log. -/
theorem backfillLoop_eq_append (c e : Nat) (jobs : List Job) (now : Ts) :
    ∀ (l : List Assignment) (acts : List Activity),
      ∃ extra, backfillLoop c e jobs now acts l = acts ++ extra := by
  intro l
  induction l with
  | nil => intro acts; exact ⟨[], by simp [backfillLoop]⟩
  | cons a rest ih =>
    intro acts
    cases hj : a.job with
    | none => simpa [backfillLoop, hj] using ih acts
    | some jobId =>
      cases hh : hasAssignedActivity acts c e jobId with
      | true => simpa [backfillLoop, hj, hh] using ih acts
      | false =>
        obtain ⟨extra, hex⟩ := ih (acts ++ [backfillEvent c e jobs now a jobId])
        refine ⟨[backfillEvent c e jobs now a jobId] ++ extra, ?_⟩
        simp only [backfillLoop, hj, hh, Bool.false_eq_true, if_false]
        rw [hex, List.append_assoc]

/-- A satisfied `assigned`-activity probe stays satisfied when the log only
grows on the right. -/
theorem hasAssignedActivity_append (acts extra : List Activity) (c e j : Nat)
    (h : hasAssignedActivity acts c e j = true) :
    hasAssignedActivity (acts ++ extra) c e j = true := by
  unfold hasAssignedActivity at h ⊢
  cases hf : acts.find? (fun ev => ev.company == c && ev.employee == e &&
      ev.job == some j && ev.action == "assigned") with
  | none => rw [hf] at h; simp at h
  | some ev =>
    rw [List.find?_append, hf]
    rfl

/-- The probe holds on a log ending in the synthetic event for that tuple. -/
theorem hasAssignedActivity_event (acts : List Activity) (c e jobId : Nat)
    (jobs : List Job) (now : Ts) (a : Assignment) :
    hasAssignedActivity (acts ++ [backfillEvent c e jobs now a jobId]) c e jobId = true := by
  unfold hasAssignedActivity
  rw [List.find?_append]
  cases hf : acts.find? (fun ev => ev.company == c && ev.employee == e &&
      ev.job == some jobId && ev.action == "assigned") with
  | some ev => rfl
  | none => simp [backfillEvent]

/-- After one pass of the backfill loop, every processed assignment with a
well-formed job id has an `assigned` activity row. -/
theorem backfillLoop_covers (c e : Nat) (jobs : List Job) (now : Ts) :
    ∀ (l : List Assignment) (acts : List Activity) (a : Assignment) (jobId : Nat),
      a ∈ l → a.job = some jobId →
      hasAssignedActivity (backfillLoop c e jobs now acts l) c e jobId = true := by
  intro l
  induction l with
  | nil => intro acts a jobId ha; simp at ha
  | cons b rest ih =>
    intro acts a jobId ha hjob
    have hstep : ∀ acts2 : List Activity, hasAssignedActivity acts2 c e jobId = true →
        hasAssignedActivity (backfillLoop c e jobs now acts2 rest) c e jobId = true := by
      intro acts2 h2
      obtain ⟨extra, hex⟩ := backfillLoop_eq_append c e jobs now rest acts2
      rw [hex]
      exact hasAssignedActivity_append acts2 extra c e jobId h2
    rcases List.mem_cons.mp ha with rfl | hmem
    · cases hh : hasAssignedActivity acts c e jobId with
      | true =>
        simp only [backfillLoop, hjob, hh, if_true]
        exact hstep acts hh
      | false =>
        simp only [backfillLoop, hjob, hh, Bool.false_eq_true, if_false]
        exact hstep _ (hasAssignedActivity_event acts c e jobId jobs now a)
    · cases hjb : b.job with
      | none =>
        simp only [backfillLoop, hjb]
        exact ih acts a jobId hmem hjob
      | some jb2 =>
        cases hh : hasAssignedActivity acts c e jb2 with
        | true =>
          simp only [backfillLoop, hjb, hh, if_true]
          exact ih acts a jobId hmem hjob
        | false =>
          simp only [backfillLoop, hjb, hh, Bool.false_eq_true, if_false]
          exact ih _ a jobId hmem hjob

/-- When every processed assignment already has its `assigned` activity row,
the backfill loop inserts nothing. -/
theorem backfillLoop_noop (c e : Nat) (jobs : List Job) (now : Ts) :
    ∀ (l : List Assignment) (acts : List Activity),
      (∀ a ∈ l, ∀ jobId, a.job = some jobId → hasAssignedActivity acts c e jobId = true) →
      backfillLoop c e jobs now acts l = acts := by
  intro l
  induction l with
  | nil => intro acts _; rfl
  | cons b rest ih =>
    intro acts hall
    cases hjb : b.job with
    | none =>
      simp only [backfillLoop, hjb]
      exact ih acts (fun a ha jobId hj => hall a (List.mem_cons_of_mem b ha) jobId hj)
    | some jb2 =>
      have hh : hasAssignedActivity acts c e jb2 = true :=
        hall b (List.mem_cons_self b rest) jb2 hjb
      simp only [backfillLoop, hjb, hh, if_true]
      exact ih acts (fun a ha jobId hj => hall a (List.mem_cons_of_mem b ha) jobId hj)

/-- C9: the assignment-activity backfill is idempotent — running it again
immediately after a run (at any later time `now2`) changes nothing: every
(company, employee, job) tuple got its `assigned` row in the first run and
is skipped in the second, so the activity log (and the whole store) is
unchanged. -/
theorem backfillAssignmentActivity_idempotent (s : St) (c e : Nat) (now now2 : Ts) :
    backfillAssignmentActivity (backfillAssignmentActivity s c e now) c e now2 =
      backfillAssignmentActivity s c e now := by
  unfold backfillAssignmentActivity
  simp only []
  congr 1
  apply backfillLoop_noop
  intro a ha jobId hj
  exact backfillLoop_covers c e s.jobs now
    (s.assignments.filter (fun a2 => a2.company == c && a2.employee == e)) s.activities a jobId
    ha hj

/-- Updating a key then reading it back gives the combined value over the
previous binding (or the default). -/
theorem lookupA_upsertA_self [DecidableEq κ] (k : κ) (d : α) (f : α → α) (l : List (κ × α)) :
    lookupA k (upsertA k d f l) = some (f ((lookupA k l).getD d)) := by
  induction l with
  | nil => simp [upsertA, lookupA]
  | cons kv rest ih =>
    obtain ⟨k2, v⟩ := kv
    by_cases h : k2 = k
    · subst h
      simp [upsertA, lookupA]
    · simp [upsertA, lookupA, h, ih]

/-- Updating one key leaves the binding of any other key unchanged. -/
theorem lookupA_upsertA_ne [DecidableEq κ] (k k2 : κ) (d : α) (f : α → α) (l : List (κ × α))
    (h : k2 ≠ k) : lookupA k2 (upsertA k d f l) = lookupA k2 l := by
  induction l with
  | nil =>
    have h2 : ¬(k = k2) := fun he => h he.symm
    simp [upsertA, lookupA, h2]
  | cons kv rest ih =>
    obtain ⟨k3, v⟩ := kv
    by_cases h3 : k3 = k
    · subst h3
      have h32 : ¬(k3 = k2) := fun he => h (he.symm.trans rfl)
      simp [upsertA, lookupA, h32]
    · simp only [upsertA, if_neg h3, lookupA]
      by_cases h32 : k3 = k2
      · simp [h32]
      · simp [h32, ih]

/-- The keys of a cons. -/
theorem keysA_cons (kv : κ × α) (l : List (κ × α)) : keysA (kv :: l) = kv.1 :: keysA l := rfl

/-- An upsert keeps the key list when the key is bound and appends it
otherwise. -/
theorem keysA_upsertA [DecidableEq κ] (k : κ) (d : α) (f : α → α) (l : List (κ × α)) :
    keysA (upsertA k d f l) = if k ∈ keysA l then keysA l else keysA l ++ [k] := by
  induction l with
  | nil => simp [upsertA, keysA]
  | cons kv rest ih =>
    obtain ⟨k2, v⟩ := kv
    by_cases h : k2 = k
    · subst h
      rw [show upsertA k2 d f ((k2, v) :: rest) = (k2, f v) :: rest from by simp [upsertA]]
      rw [keysA_cons, keysA_cons]
      rw [if_pos (List.mem_cons_self k2 (keysA rest))]
    · simp only [upsertA, if_neg h, keysA_cons, ih]
      by_cases hm : k ∈ keysA rest
      · rw [if_pos hm, if_pos (by simp [hm])]
      · rw [if_neg hm, if_neg (by
          intro hcon
          rcases List.mem_cons.mp hcon with he | hmem
          · exact h he.symm
          · exact hm hmem)]
        simp

/-- Upserts preserve key distinctness. -/
theorem keysA_upsertA_nodup [DecidableEq κ] (k : κ) (d : α) (f : α → α) (l : List (κ × α))
    (h : (keysA l).Nodup) : (keysA (upsertA k d f l)).Nodup := by
  rw [keysA_upsertA]
  by_cases hm : k ∈ keysA l
  · simpa [hm] using h
  · rw [if_neg hm]
    exact List.Nodup.append h (List.nodup_singleton k)
      (by simpa [List.disjoint_singleton] using hm)

/-- What the dictionary fold stores under a key: nothing changes when no
item has that key; otherwise the items with that key are combined, starting
from the previous binding or the default. -/
theorem lookupA_dictFold [DecidableEq κ] (key : β → κ) (d : α) (comb : α → β → α) :
    ∀ (bs : List β) (acc : List (κ × α)) (k : κ),
      lookupA k (dictFold key d comb acc bs) =
        match bs.filter (fun b => decide (key b = k)) with
        | [] => lookupA k acc
        | b2 :: rest => some ((b2 :: rest).foldl comb ((lookupA k acc).getD d)) := by
  intro bs
  induction bs with
  | nil => intro acc k; simp [dictFold]
  | cons b rest ih =>
    intro acc k
    by_cases hkb : key b = k
    · rw [dictFold, ih]
      rw [List.filter_cons_of_pos (by simp [hkb])]
      subst hkb
      rw [lookupA_upsertA_self]
      cases hfil : rest.filter (fun b2 => decide (key b2 = key b)) with
      | nil => simp [List.foldl]
      | cons c cs => simp [List.foldl]
    · rw [dictFold, ih]
      rw [List.filter_cons_of_neg (by simp [hkb])]
      rw [lookupA_upsertA_ne (key b) k d _ acc (fun he => hkb he.symm)]

/-- The dictionary fold keeps keys distinct. -/
theorem keysA_dictFold_nodup [DecidableEq κ] (key : β → κ) (d : α) (comb : α → β → α) :
    ∀ (bs : List β) (acc : List (κ × α)), (keysA acc).Nodup →
      (keysA (dictFold key d comb acc bs)).Nodup := by
  intro bs
  induction bs with
  | nil => intro acc h; exact h
  | cons b rest ih =>
    intro acc h
    rw [dictFold]
    exact ih _ (keysA_upsertA_nodup _ _ _ _ h)

/-- The dictionary fold binds exactly the previous keys plus the keys of the
processed items. -/
theorem mem_keysA_dictFold [DecidableEq κ] (key : β → κ) (d : α) (comb : α → β → α) :
    ∀ (bs : List β) (acc : List (κ × α)) (k : κ),
      k ∈ keysA (dictFold key d comb acc bs) ↔ k ∈ keysA acc ∨ ∃ b ∈ bs, key b = k := by
  intro bs
  induction bs with
  | nil => intro acc k; simp [dictFold]
  | cons b rest ih =>
    intro acc k
    rw [dictFold, ih, keysA_upsertA]
    by_cases hm : key b ∈ keysA acc
    · rw [if_pos hm]
      constructor
      · rintro (h | ⟨b2, hb2, hk⟩)
        · exact Or.inl h
        · exact Or.inr ⟨b2, List.mem_cons_of_mem b hb2, hk⟩
      · rintro (h | ⟨b2, hb2, hk⟩)
        · exact Or.inl h
        · rcases List.mem_cons.mp hb2 with rfl | hb2m
          · exact Or.inl (hk ▸ hm)
          · exact Or.inr ⟨b2, hb2m, hk⟩
    · rw [if_neg hm]
      simp only [List.mem_append, List.mem_cons, List.not_mem_nil, or_false]
      constructor
      · rintro ((h | h) | ⟨b2, hb2, hk⟩)
        · exact Or.inl h
        · exact Or.inr ⟨b, Or.inl rfl, h.symm⟩
        · exact Or.inr ⟨b2, Or.inr hb2, hk⟩
      · rintro (h | ⟨b2, hb2m, hk⟩)
        · exact Or.inl (Or.inl h)
        · rcases hb2m with rfl | hb2m
          · exact Or.inl (Or.inr hk.symm)
          · exact Or.inr ⟨b2, hb2m, hk⟩

/-- With distinct keys, membership of a pair determines the lookup. -/
theorem lookupA_of_mem_nodup [DecidableEq κ] (l : List (κ × α)) (k : κ) (v : α) :
    (keysA l).Nodup → (k, v) ∈ l → lookupA k l = some v := by
  induction l with
  | nil => intro _ hm; simp at hm
  | cons kv rest ih =>
    obtain ⟨k2, v2⟩ := kv
    intro hnd hm
    rw [keysA_cons, List.nodup_cons] at hnd
    rcases List.mem_cons.mp hm with heq | hmem
    · cases heq
      simp [lookupA]
    · have hk2 : k2 ≠ k := by
        intro he
        subst he
        exact hnd.1 (by simpa [keysA] using List.mem_map_of_mem Prod.fst hmem)
      simp only [lookupA, if_neg hk2]
      exact ih hnd.2 hmem

/-- A bound key comes from some pair of the list. -/
theorem exists_pair_of_mem_keysA (l : List (κ × α)) (k : κ) (h : k ∈ keysA l) :
    ∃ v, (k, v) ∈ l := by
  simp only [keysA, List.mem_map] at h
  obtain ⟨p, hp, hk⟩ := h
  exact ⟨p.2, by rwa [← hk, Prod.mk.eta]⟩

/-- Folding additions of `durOrZero` is summation. -/
theorem foldl_add_durOrZero (l : List TimeEntry) (a : Int) :
    l.foldl (fun acc t => acc + durOrZero t) a = a + (l.map durOrZero).sum := by
  induction l generalizing a with
  | nil => simp
  | cons t rest ih =>
    simp only [List.foldl_cons, List.map_cons, List.sum_cons]
    rw [ih (a + durOrZero t)]
    ring

/-- What folding `addGroupRow` over group rows produces: summed minutes,
iteratively rounded amount, and one `by_employee` line per row in order. -/
theorem foldl_addGroupRow (s : St) (company : Nat) (rows : List ((Nat × Nat) × Int))
    (agg : JobAgg) :
    (rows.foldl (addGroupRow s company) agg).minutes
        = agg.minutes + (rows.map (fun r => r.2)).sum ∧
    (rows.foldl (addGroupRow s company) agg).amount
        = rows.foldl (fun a r => round2 (a + (lineOf s company r).amount)) agg.amount ∧
    (rows.foldl (addGroupRow s company) agg).byEmployee
        = agg.byEmployee ++ rows.map (lineOf s company) := by
  induction rows generalizing agg with
  | nil => simp
  | cons r rest ih =>
    simp only [List.foldl_cons, List.map_cons, List.sum_cons]
    obtain ⟨h1, h2, h3⟩ := ih (addGroupRow s company agg r)
    refine ⟨?_, ?_, ?_⟩
    · rw [h1]
      simp only [addGroupRow]
      ring
    · rw [h2]
      simp only [addGroupRow]
    · rw [h3]
      simp [addGroupRow]

/-- Two booleans are equal when they are equivalent as propositions. -/
theorem bool_eq_of_iff {a b : Bool} (h : a = true ↔ b = true) : a = b := by
  cases a <;> cases b <;> simp_all

/-- For a date a real timestamp can produce and a month 1..12, lying in the
half-open range [first of the month, first of the next month) is the same
as having that calendar month. -/
theorem range_query_eq_month (y m y2 m2 : Int) (hm1 : 1 ≤ m) (hm2 : m ≤ 12)
    (hnext : (m = 12 → y2 = y + 1 ∧ m2 = 1) ∧ (m ≠ 12 → y2 = y ∧ m2 = m + 1))
    (d : CalDate) (hvd : validCalDate d) :
    (CalDate.ble ⟨y, m, 1⟩ d && CalDate.blt d ⟨y2, m2, 1⟩) = inCalendarMonthB y m d := by
  obtain ⟨h1, h2, h3⟩ := hvd
  apply bool_eq_of_iff
  simp only [CalDate.ble, CalDate.blt, inCalendarMonthB, Bool.and_eq_true, Bool.or_eq_true,
    decide_eq_true_eq, beq_iff_eq]
  by_cases hm12 : m = 12
  · obtain ⟨hy, hm2e⟩ := hnext.1 hm12
    subst hy hm2e hm12
    omega
  · obtain ⟨hy, hm2e⟩ := hnext.2 hm12
    subst hy hm2e
    omega

/-- Under valid stored dates, the `$match` range filter selects exactly the
spec's calendar-month selection. -/
theorem billing_filter_eq_spec (s : St) (company : Nat) (y m : Int) (jobFilter : Option Nat)
    (hm1 : 1 ≤ m) (hm2 : m ≤ 12) (hvd : ∀ t ∈ s.entries, validCalDate t.date) :
    s.entries.filter (billingMatch company ⟨y, m, 1⟩
        ⟨y + (if m == 12 then 1 else 0), if m == 12 then 1 else m + 1, 1⟩ jobFilter)
      = specSelected s company y m jobFilter := by
  have hnext : (m = 12 → y + (if m == 12 then (1 : Int) else 0) = y + 1 ∧
        (if m == 12 then (1 : Int) else m + 1) = 1) ∧
      (m ≠ 12 → y + (if m == 12 then (1 : Int) else 0) = y ∧
        (if m == 12 then (1 : Int) else m + 1) = m + 1) := by
    constructor
    · intro h12
      simp [h12]
    · intro h12
      simp [h12]
  unfold specSelected
  apply List.filter_congr
  intro t ht
  unfold billingMatch
  apply bool_eq_of_iff
  rw [← range_query_eq_month y m (y + (if m == 12 then 1 else 0))
    (if m == 12 then 1 else m + 1) hm1 hm2 hnext t.date (hvd t ht)]
  simp only [Bool.and_eq_true, and_assoc]

/-- A successful month parse yields a month between 1 and 12. -/
theorem parseMonth_month_bounds (month : String) (y m : Int)
    (h : parseMonth month = some (y, m)) : 1 ≤ m ∧ m ≤ 12 := by
  unfold parseMonth at h
  split at h
  · split at h
    · split at h
      · rename_i cond
        simp only [Option.some.injEq, Prod.mk.injEq] at h
        obtain ⟨rfl, rfl⟩ := h
        simp only [Bool.and_eq_true, decide_eq_true_eq] at cond
        exact ⟨cond.1.1.2, cond.1.2⟩
      · exact absurd h (by simp)
    · exact absurd h (by simp)
  · exact absurd h (by simp)

/-- Within the rows of one job, distinct (job, employee) keys give distinct
employees. -/
theorem nodup_snd_filter_fst (l : List ((Nat × Nat) × Int)) (j : Nat)
    (h : (keysA l).Nodup) :
    ((l.filter (fun r => decide (r.1.1 = j))).map (fun r => r.1.2)).Nodup := by
  induction l with
  | nil => simp
  | cons r rest ih =>
    rw [keysA_cons, List.nodup_cons] at h
    by_cases hf : r.1.1 = j
    · rw [List.filter_cons_of_pos (by simp [hf])]
      rw [List.map_cons, List.nodup_cons]
      refine ⟨?_, ih h.2⟩
      intro hmem
      simp only [List.mem_map, List.mem_filter, decide_eq_true_eq] at hmem
      obtain ⟨r2, ⟨hr2, hr2j⟩, hr2e⟩ := hmem
      apply h.1
      have hjj : r2.1.1 = r.1.1 := by rw [hr2j, hf]
      have heq : r2.1 = r.1 := Prod.ext hjj hr2e
      rw [← heq]
      exact List.mem_map_of_mem Prod.fst hr2
    · rw [List.filter_cons_of_neg (by simp [hf])]
      exact ih h.2

/-- Component-wise reading of the (job, employee) key test. -/
theorem key_test_eq (a b c d : Nat) : decide ((a, b) = (c, d)) = (a == c && b == d) := by
  apply bool_eq_of_iff
  simp [Prod.ext_iff, Bool.and_eq_true]

/-- Characterization of the `$group` stage relative to the spec selection:
distinct keys, each group's minutes being the spec sum for its (job,
employee) pair and coming from at least one selected entry, and a group for
every selected entry. -/
theorem billingGroups_char (s : St) (company : Nat) (startD endD : CalDate) (y m : Int)
    (jobFilter : Option Nat)
    (hfil : s.entries.filter (billingMatch company startD endD jobFilter)
      = specSelected s company y m jobFilter) :
    (keysA (billingGroups s company startD endD jobFilter)).Nodup ∧
    (∀ g ∈ billingGroups s company startD endD jobFilter,
      g.2 = specGroupMinutes s company y m jobFilter g.1.1 g.1.2 ∧
      ∃ t ∈ specSelected s company y m jobFilter, (t.job, t.employee) = g.1) ∧
    (∀ t ∈ specSelected s company y m jobFilter,
      (t.job, t.employee) ∈ keysA (billingGroups s company startD endD jobFilter)) := by
  have hG : billingGroups s company startD endD jobFilter
      = dictFold (fun t => (t.job, t.employee)) 0 (fun acc t => acc + durOrZero t) []
          (specSelected s company y m jobFilter) := by
    unfold billingGroups
    rw [hfil]
  refine ⟨?_, ?_, ?_⟩
  · rw [hG]
    exact keysA_dictFold_nodup _ _ _ _ [] (by simp [keysA])
  · intro g hg
    have hnd : (keysA (billingGroups s company startD endD jobFilter)).Nodup := by
      rw [hG]
      exact keysA_dictFold_nodup _ _ _ _ [] (by simp [keysA])
    have hl : lookupA g.1 (billingGroups s company startD endD jobFilter) = some g.2 :=
      lookupA_of_mem_nodup _ g.1 g.2 hnd (by rw [Prod.mk.eta]; exact hg)
    rw [hG, lookupA_dictFold] at hl
    cases hfg : (specSelected s company y m jobFilter).filter
        (fun b => decide ((b.job, b.employee) = g.1)) with
    | nil =>
      rw [hfg] at hl
      simp [lookupA] at hl
    | cons t0 ts =>
      rw [hfg] at hl
      simp only [lookupA, Option.getD_none, Option.some.injEq] at hl
      have hmem0 := hfg ▸ List.mem_cons_self t0 ts
      have hmem0f := List.mem_filter.mp hmem0
      constructor
      · rw [← hl, foldl_add_durOrZero]
        unfold specGroupMinutes
        have hpred : (specSelected s company y m jobFilter).filter
            (fun t => t.job == g.1.1 && t.employee == g.1.2) = t0 :: ts := by
          rw [← hfg]
          apply List.filter_congr
          intro t _
          exact (key_test_eq t.job t.employee g.1.1 g.1.2).symm
        rw [hpred]
        simp
      · exact ⟨t0, hmem0f.1, by simpa using hmem0f.2⟩
  · intro t ht
    rw [hG, mem_keysA_dictFold]
    exact Or.inr ⟨t, ht, rfl⟩

/-- Characterization of the per-job `results` dict: distinct job keys; each
job's accumulator built from the non-empty list of its group rows (summed
minutes, iteratively rounded amount, one line per group); a job entry for
every group. -/
theorem billingJobAggs_char (s : St) (company : Nat) (startD endD : CalDate)
    (jobFilter : Option Nat) :
    (keysA (billingJobAggs s company startD endD jobFilter)).Nodup ∧
    (∀ pr ∈ billingJobAggs s company startD endD jobFilter,
      (billingGroups s company startD endD jobFilter).filter
          (fun r => decide (r.1.1 = pr.1)) ≠ [] ∧
      pr.2.minutes = (((billingGroups s company startD endD jobFilter).filter
          (fun r => decide (r.1.1 = pr.1))).map (fun r => r.2)).sum ∧
      pr.2.amount = ((billingGroups s company startD endD jobFilter).filter
          (fun r => decide (r.1.1 = pr.1))).foldl
            (fun a r => round2 (a + (lineOf s company r).amount)) 0 ∧
      pr.2.byEmployee = ((billingGroups s company startD endD jobFilter).filter
          (fun r => decide (r.1.1 = pr.1))).map (lineOf s company)) ∧
    (∀ g ∈ billingGroups s company startD endD jobFilter,
      g.1.1 ∈ keysA (billingJobAggs s company startD endD jobFilter)) := by
  have hnd : (keysA (billingJobAggs s company startD endD jobFilter)).Nodup := by
    unfold billingJobAggs
    exact keysA_dictFold_nodup _ _ _ _ [] (by simp [keysA])
  refine ⟨hnd, ?_, ?_⟩
  · intro pr hpr
    have hl : lookupA pr.1 (billingJobAggs s company startD endD jobFilter) = some pr.2 :=
      lookupA_of_mem_nodup _ pr.1 pr.2 hnd (by rw [Prod.mk.eta]; exact hpr)
    unfold billingJobAggs at hl
    rw [lookupA_dictFold] at hl
    cases hfg : (billingGroups s company startD endD jobFilter).filter
        (fun r => decide (r.1.1 = pr.1)) with
    | nil =>
      rw [hfg] at hl
      simp [lookupA] at hl
    | cons r0 rs =>
      rw [hfg] at hl
      simp only [lookupA, Option.getD_none, Option.some.injEq] at hl
      obtain ⟨hm, ha, hb⟩ := foldl_addGroupRow s company (r0 :: rs) emptyJobAgg
      refine ⟨by simp, ?_, ?_, ?_⟩
      · rw [← hl, hm]
        simp [emptyJobAgg]
      · rw [← hl, ha]
        simp [emptyJobAgg]
      · rw [← hl, hb]
        simp [emptyJobAgg]
  · intro g hg
    unfold billingJobAggs
    rw [mem_keysA_dictFold]
    exact Or.inr ⟨g, hg, rfl⟩

/-- C6: with an admin-like caller, an invalid month string is rejected as a
validation error; for a valid month the report selects exactly the
company's entries whose `date` lies in the calendar month (optionally one
job), grouped by (job, employee) with null/missing `duration_minutes` as
zero (so an open entry contributes 0): each job appears once, each employee
once per job, each line's minutes are the spec sum over the selected
entries of that pair, its rate the resolved per-(job, employee) rate, its
amount `round(minutes/60 * rate, 2)`, and each job's totals are the summed
minutes and the per-addition re-rounded sum of the independently rounded
line amounts; every group comes from a selected entry and every selected
entry has its group. -/
theorem billingReport_monthly_rollup (s : St) (u : User) (month : String)
    (jobFilter : Option Nat) (hRole : isAdminLike u.role = true) :
    (parseMonth month = none →
      billingReport s u month jobFilter = .error (.badRequest "Invalid month format")) ∧
    (∀ y m, parseMonth month = some (y, m) →
      (∀ t ∈ s.entries, validCalDate t.date) →
      ∃ rep, billingReport s u month jobFilter = .ok rep ∧ rep.month = month ∧
        (rep.jobs.map (fun r => r.jobId)).Nodup ∧
        (∀ row ∈ rep.jobs,
          (row.byEmployee.map (fun l => l.employee)).Nodup ∧
          (∀ line ∈ row.byEmployee,
            line.minutes = specGroupMinutes s u.company y m jobFilter row.jobId line.employee ∧
            line.rate = getEffectiveRate s u.company row.jobId line.employee ∧
            line.amount = round2 ((line.minutes : ℚ) / 60 * line.rate)) ∧
          row.minutes = (row.byEmployee.map (fun l => l.minutes)).sum ∧
          row.amount = row.byEmployee.foldl (fun a l => round2 (a + l.amount)) 0 ∧
          (∃ t ∈ specSelected s u.company y m jobFilter, t.job = row.jobId)) ∧
        (∀ t ∈ specSelected s u.company y m jobFilter,
          ∃ row ∈ rep.jobs, row.jobId = t.job ∧
            ∃ line ∈ row.byEmployee, line.employee = t.employee)) := by
  constructor
  · intro hNone
    simp only [billingReport, hRole, Bool.not_true, Bool.false_eq_true, if_false, hNone]
  · intro y m hParse hvd
    obtain ⟨hm1, hm2⟩ := parseMonth_month_bounds month y m hParse
    have hfil := billing_filter_eq_spec s u.company y m jobFilter hm1 hm2 hvd
    obtain ⟨hGnd, hGval, hGcov⟩ := billingGroups_char s u.company ⟨y, m, 1⟩
      ⟨y + (if m == 12 then 1 else 0), if m == 12 then 1 else m + 1, 1⟩ y m jobFilter hfil
    obtain ⟨hJnd, hJval, hJcov⟩ := billingJobAggs_char s u.company ⟨y, m, 1⟩
      ⟨y + (if m == 12 then 1 else 0), if m == 12 then 1 else m + 1, 1⟩ jobFilter
    refine ⟨{ month := month,
              jobs := (billingJobAggs s u.company ⟨y, m, 1⟩
                ⟨y + (if m == 12 then 1 else 0), if m == 12 then 1 else m + 1, 1⟩
                jobFilter).map (jobRowOf s) }, ?_, rfl, ?_, ?_, ?_⟩
    · simp only [billingReport, hRole, Bool.not_true, Bool.false_eq_true, if_false, hParse]
    · rw [List.map_map]
      rw [show ((fun r => r.jobId) ∘ jobRowOf s) = (Prod.fst (β := JobAgg))
        from funext fun pr => rfl]
      exact hJnd
    · intro row hrow
      obtain ⟨pr, hpr, rfl⟩ := List.mem_map.mp hrow
      obtain ⟨hne, hmins, hamt, hbye⟩ := hJval pr hpr
      simp only [jobRowOf]
      refine ⟨?_, ?_, ?_, ?_, ?_⟩
      · rw [hbye, List.map_map]
        rw [show ((fun l => l.employee) ∘ lineOf s u.company) = (fun r => r.1.2)
          from funext fun r => rfl]
        exact nodup_snd_filter_fst _ pr.1 hGnd
      · intro line hline
        rw [hbye] at hline
        obtain ⟨g, hgfil, rfl⟩ := List.mem_map.mp hline
        have hgG := (List.mem_filter.mp hgfil).1
        have hgj : g.1.1 = pr.1 := by
          have := (List.mem_filter.mp hgfil).2
          simpa using this
        obtain ⟨hgval, -⟩ := hGval g hgG
        refine ⟨?_, ?_, ?_⟩
        · rw [← hgj]
          exact hgval
        · rw [← hgj]
          rfl
        · rfl
      · rw [hmins, hbye, List.map_map]
        rw [show ((fun l => l.minutes) ∘ lineOf s u.company) = (fun r => r.2)
          from funext fun r => rfl]
      · rw [hamt, hbye, List.foldl_map]
      · obtain ⟨g0, hg0⟩ := List.exists_mem_of_ne_nil _ hne
        have hg0G := (List.mem_filter.mp hg0).1
        have hg0j : g0.1.1 = pr.1 := by
          have := (List.mem_filter.mp hg0).2
          simpa using this
        obtain ⟨-, t, ht, hkey⟩ := hGval g0 hg0G
        refine ⟨t, ht, ?_⟩
        have := congrArg Prod.fst hkey
        simpa [hg0j] using this
    · intro t ht
      have hkG := hGcov t ht
      obtain ⟨gv, hgvG⟩ := exists_pair_of_mem_keysA _ _ hkG
      have hjJ := hJcov ((t.job, t.employee), gv) hgvG
      obtain ⟨agg, haggJ⟩ := exists_pair_of_mem_keysA _ _ hjJ
      obtain ⟨-, -, -, hbye⟩ := hJval ((t.job, t.employee).1, agg) haggJ
      refine ⟨jobRowOf s ((t.job, t.employee).1, agg),
        List.mem_map_of_mem (jobRowOf s) haggJ, rfl, ?_⟩
      have hgfil : ((t.job, t.employee), gv) ∈
          (billingGroups s u.company ⟨y, m, 1⟩
            ⟨y + (if m == 12 then 1 else 0), if m == 12 then 1 else m + 1, 1⟩
            jobFilter).filter (fun r => decide (r.1.1 = ((t.job, t.employee).1, agg).1)) := by
        rw [List.mem_filter]
        exact ⟨hgvG, by simp⟩
      refine ⟨lineOf s u.company ((t.job, t.employee), gv), ?_, rfl⟩
      simp only [jobRowOf]
      rw [hbye]
      exact List.mem_map_of_mem _ hgfil

set_option maxRecDepth 10000 in
/-- Witness for C6 on the billing fixture: month 13 is rejected; for
2025-10 the report succeeds and each job's minutes are the sum of its
per-employee minutes. -/
theorem billingReport_monthly_rollup_witness :
    billingReport stBill uAdm "2025-13" none = .error (.badRequest "Invalid month format") ∧
    ∃ rep, billingReport stBill uAdm "2025-10" none = .ok rep ∧
      ∀ row ∈ rep.jobs, row.minutes = (row.byEmployee.map (fun l => l.minutes)).sum := by
  constructor
  · exact (billingReport_monthly_rollup stBill uAdm "2025-13" none (by decide)).1
      (by with_unfolding_all decide)
  · obtain ⟨rep, hok, -, -, hrows, -⟩ :=
      (billingReport_monthly_rollup stBill uAdm "2025-10" none (by decide)).2 2025 10
        (by with_unfolding_all decide) (by decide)
    exact ⟨rep, hok, fun row hrow => (hrows row hrow).2.2.1⟩

end Teamflow
